import Mathlib

/-!
Verification of the pipeline-monitoring core: the metrics aggregator
(`PipelineMonitor` in src/src/monitors/pipeline_monitor.py), the statistical
anomaly detector (`AnomalyDetector` in src/src/monitors/anomaly_detector.py)
and the record model (`PipelineExecution` in src/src/models/pipeline_execution.py),
shallowly embedded in Lean.

Modelling conventions:
- Python dicts are embedded as insertion-ordered association lists with unique
  keys; the `defaultdict` access-creates-entry behaviour is made explicit.
- Python floats are idealised as rationals (`Rat`).  `statistics.stdev` takes a
  square root, which is irrational in general, so detector functions receive
  the standard deviation as an explicit argument characterised by
  `IsSampleStdev` (nonnegative square root of the sample variance).
- Timestamps are integer instants (epoch seconds); a day is 86400 seconds.
  The trends query, whose datetime comparisons can raise in Python, instead
  carries full datetimes: an instant plus the presence of `tzinfo`, so that
  comparing a zone-naive against a zone-aware value is an explicit error.
- Python `None` is `Option.none`; string truthiness (`x or 'unknown'`) treats
  both `None` and the empty string as falsy.
- Alert messages (pure string formatting) and alert timestamps
  (`datetime.now()`) carry no verified content and are omitted from the
  embedded `Alert`.
-/

set_option linter.unusedVariables false

namespace PM

/-- Pipeline execution status (src/src/enums/pipeline_status.py). -/
inductive PipelineStatus where
  | RUNNING
  | SUCCESS
  | FAILED
  | CANCELLED
  | TIMEOUT
  | UNKNOWN
deriving DecidableEq

/-- Alert severity levels (src/src/enums/alert_severity.py). -/
inductive AlertSeverity where
  | LOW
  | MEDIUM
  | HIGH
  | CRITICAL
deriving DecidableEq

/-- A parsed execution record (`PipelineExecution.__init__`,
src/src/models/pipeline_execution.py, after normalisation): `status` has been
coerced into the closed enum, the `None → 0` defaults for `duration` and
`records_processed` have been applied, and timestamps are integer instants.
String-typed fields that Python may hold as `None` are `Option String`. -/
structure PipelineExecution where
  execution_id : Option String
  pipeline_id : Option String
  status : PipelineStatus
  start_time : Int
  end_time : Option Int
  duration : Int
  records_processed : Int
  team : Option String
deriving DecidableEq

/-- The per-pipeline metrics entry: the `defaultdict` value of
`PipelineMonitor.__init__` (src/src/monitors/pipeline_monitor.py lines 19-27),
with the zero-valued defaults given by `zeroMetrics`. -/
structure PipeMetrics where
  total_executions : Nat
  successful_executions : Nat
  failed_executions : Nat
  avg_duration : Rat
  avg_records_processed : Rat
  last_execution : Option Int
  team : Option String
deriving DecidableEq

/-- The default-factory value of the metrics `defaultdict`. -/
def zeroMetrics : PipeMetrics :=
  { total_executions := 0
    successful_executions := 0
    failed_executions := 0
    avg_duration := 0
    avg_records_processed := 0
    last_execution := none
    team := none }

/-- Association-list lookup: first entry with the given key (Python dicts have
unique keys, so the first match is the match). -/
def alookup {K V : Type} [DecidableEq K] (k : K) : List (K × V) → Option V
  | [] => none
  | p :: l => if p.1 = k then some p.2 else alookup k l

/-- `defaultdict` read-modify-write: `d[k]` creates a default entry (appended,
preserving insertion order) when the key is absent; mutating the obtained
entry in place keeps its position. -/
def dictUpdate {K V : Type} [DecidableEq K] (l : List (K × V)) (k : K) (d : V)
    (f : V → V) : List (K × V) :=
  if (alookup k l).isSome then
    l.map (fun p => if p.1 = k then (p.1, f p.2) else p)
  else
    l ++ [(k, f d)]

/-- Monitor state: the append-ordered execution log and the per-pipeline
metrics map (`PipelineMonitor.__init__`). -/
structure MonitorState where
  executions : List PipelineExecution
  pipeline_metrics : List (Option String × PipeMetrics)
deriving DecidableEq

/-- A fresh `PipelineMonitor()`. -/
def initialState : MonitorState := { executions := [], pipeline_metrics := [] }

/-- The body of `PipelineMonitor._update_pipeline_metrics`
(src/src/monitors/pipeline_monitor.py lines 41-63) applied to the entry for
the record's pipeline id, in source order: increment `total_executions`,
overwrite `team`, bump the status counter on exact SUCCESS/FAILED match, fold
positive `duration` and `records_processed` into the running means using the
post-increment total, and finally overwrite `last_execution`.  The Python
guard `execution.duration and execution.duration > 0` is integer truthiness
followed by the comparison, i.e. `duration ≠ 0 ∧ 0 < duration`. -/
def update_metrics_entry (e : PipelineExecution) (m : PipeMetrics) : PipeMetrics :=
  let m1 := { m with total_executions := m.total_executions + 1, team := e.team }
  let m2 :=
    match e.status with
    | .SUCCESS => { m1 with successful_executions := m1.successful_executions + 1 }
    | .FAILED => { m1 with failed_executions := m1.failed_executions + 1 }
    | _ => m1
  let m3 :=
    if e.duration ≠ 0 ∧ 0 < e.duration then
      { m2 with avg_duration :=
          (m2.avg_duration * ((m2.total_executions : Rat) - 1) + (e.duration : Rat))
            / (m2.total_executions : Rat) }
    else m2
  let m4 :=
    if e.records_processed ≠ 0 ∧ 0 < e.records_processed then
      { m3 with avg_records_processed :=
          (m3.avg_records_processed * ((m3.total_executions : Rat) - 1)
              + (e.records_processed : Rat))
            / (m3.total_executions : Rat) }
    else m3
  { m4 with last_execution := some e.start_time }

/-- `PipelineMonitor._update_pipeline_metrics`: `defaultdict` access to the
record's pipeline entry followed by the in-place field updates. -/
def update_pipeline_metrics (st : MonitorState) (e : PipelineExecution) :
    MonitorState :=
  let pm := dictUpdate st.pipeline_metrics e.pipeline_id zeroMetrics
    (update_metrics_entry e)
  { st with pipeline_metrics := pm }

/-- One iteration of the `load_executions` loop
(src/src/monitors/pipeline_monitor.py lines 34-39): append the parsed record
to the log, then update the metrics map. -/
def ingest (st : MonitorState) (e : PipelineExecution) : MonitorState :=
  update_pipeline_metrics { st with executions := st.executions ++ [e] } e

/-- Ingesting a whole (already parsed) record sequence in order. -/
def ingestAll (st : MonitorState) (es : List PipelineExecution) : MonitorState :=
  es.foldl ingest st

/-- The metrics entry the monitor holds for a key, reading the defaultdict's
zero entry when the key is absent. -/
def metricsOf (st : MonitorState) (k : Option String) : PipeMetrics :=
  (alookup k st.pipeline_metrics).getD zeroMetrics

theorem alookup_map_entry {K V : Type} [DecidableEq K] (l : List (K × V))
    (k : K) (f : V → V) :
    alookup k (l.map (fun p => if p.1 = k then (p.1, f p.2) else p))
      = (alookup k l).map f := by
  induction l with
  | nil => rfl
  | cons p l ih =>
    by_cases h : p.1 = k <;> simp [alookup, h, ih]

theorem alookup_map_entry_ne {K V : Type} [DecidableEq K] (l : List (K × V))
    (k k' : K) (f : V → V) (hk : k' ≠ k) :
    alookup k' (l.map (fun p => if p.1 = k then (p.1, f p.2) else p))
      = alookup k' l := by
  have hkk : ¬k = k' := fun hc => hk hc.symm
  induction l with
  | nil => rfl
  | cons p l ih =>
    by_cases h : p.1 = k
    · simp [alookup, h, hkk, ih]
    · by_cases h' : p.1 = k' <;> simp [alookup, h, h', fun hc => hk hc, ih]

theorem alookup_append_none {K V : Type} [DecidableEq K] (l : List (K × V))
    (k : K) (v : V) (h : alookup k l = none) :
    alookup k (l ++ [(k, v)]) = some v := by
  induction l with
  | nil => simp [alookup]
  | cons p l ih =>
    by_cases hp : p.1 = k
    · simp [alookup, hp] at h
    · simp [alookup, hp] at h ⊢
      exact ih h

theorem alookup_append_ne {K V : Type} [DecidableEq K] (l : List (K × V))
    (k k' : K) (v : V) (hk : k' ≠ k) :
    alookup k' (l ++ [(k, v)]) = alookup k' l := by
  have hkk : ¬k = k' := fun hc => hk hc.symm
  induction l with
  | nil => simp [alookup, hkk]
  | cons p l ih =>
    by_cases hp : p.1 = k' <;> simp [alookup, hp, ih]

/-- Reading back the updated key after a `defaultdict` read-modify-write. -/
theorem alookup_dictUpdate_self {K V : Type} [DecidableEq K]
    (l : List (K × V)) (k : K) (d : V) (f : V → V) :
    alookup k (dictUpdate l k d f) = some (f ((alookup k l).getD d)) := by
  unfold dictUpdate
  cases h : alookup k l with
  | none => simp [h, alookup_append_none l k (f d) h]
  | some v => simp [h, alookup_map_entry]

/-- A `defaultdict` read-modify-write leaves every other key untouched. -/
theorem alookup_dictUpdate_ne {K V : Type} [DecidableEq K]
    (l : List (K × V)) (k k' : K) (d : V) (f : V → V) (hk : k' ≠ k) :
    alookup k' (dictUpdate l k d f) = alookup k' l := by
  unfold dictUpdate
  cases h : alookup k l with
  | none => simp [h, alookup_append_ne l k k' (f d) hk]
  | some v => simp [h, alookup_map_entry_ne l k k' f hk]

theorem update_metrics_entry_total (e : PipelineExecution) (m : PipeMetrics) :
    (update_metrics_entry e m).total_executions = m.total_executions + 1 := by
  simp only [update_metrics_entry]
  cases e.status <;>
    by_cases hd : e.duration ≠ 0 ∧ 0 < e.duration <;>
    by_cases hr : e.records_processed ≠ 0 ∧ 0 < e.records_processed <;>
    simp [hd, hr]

theorem update_metrics_entry_avg_duration (e : PipelineExecution) (m : PipeMetrics) :
    (update_metrics_entry e m).avg_duration
      = if e.duration ≠ 0 ∧ 0 < e.duration then
          (m.avg_duration * (m.total_executions : Rat) + (e.duration : Rat))
            / ((m.total_executions : Rat) + 1)
        else m.avg_duration := by
  simp only [update_metrics_entry]
  cases e.status <;>
    by_cases hd : e.duration ≠ 0 ∧ 0 < e.duration <;>
    by_cases hr : e.records_processed ≠ 0 ∧ 0 < e.records_processed <;>
    simp [hd, hr]

theorem update_metrics_entry_avg_records (e : PipelineExecution) (m : PipeMetrics) :
    (update_metrics_entry e m).avg_records_processed
      = if e.records_processed ≠ 0 ∧ 0 < e.records_processed then
          (m.avg_records_processed * (m.total_executions : Rat) + (e.records_processed : Rat))
            / ((m.total_executions : Rat) + 1)
        else m.avg_records_processed := by
  simp only [update_metrics_entry]
  cases e.status <;>
    by_cases hd : e.duration ≠ 0 ∧ 0 < e.duration <;>
    by_cases hr : e.records_processed ≠ 0 ∧ 0 < e.records_processed <;>
    simp [hd, hr]

/-- C1: the aggregator's update of a record's pipeline entry first increments
`total_executions`; then, exactly when the record's duration is positive, it
replaces the running mean duration by `(old_mean*(n-1) + duration)/n` with `n`
the post-increment total-execution count (so non-positive durations leave the
mean untouched while still growing the denominator used by later updates);
the running mean of records processed follows the same rule with
`records_processed` in place of `duration`. -/
theorem update_running_means (st : MonitorState) (e : PipelineExecution) :
    (metricsOf (update_pipeline_metrics st e) e.pipeline_id).total_executions
        = (metricsOf st e.pipeline_id).total_executions + 1 ∧
    (metricsOf (update_pipeline_metrics st e) e.pipeline_id).avg_duration
        = (if 0 < e.duration then
            ((metricsOf st e.pipeline_id).avg_duration
                * (((metricsOf (update_pipeline_metrics st e) e.pipeline_id).total_executions : Rat) - 1)
              + (e.duration : Rat))
              / ((metricsOf (update_pipeline_metrics st e) e.pipeline_id).total_executions : Rat)
          else (metricsOf st e.pipeline_id).avg_duration) ∧
    (metricsOf (update_pipeline_metrics st e) e.pipeline_id).avg_records_processed
        = (if 0 < e.records_processed then
            ((metricsOf st e.pipeline_id).avg_records_processed
                * (((metricsOf (update_pipeline_metrics st e) e.pipeline_id).total_executions : Rat) - 1)
              + (e.records_processed : Rat))
              / ((metricsOf (update_pipeline_metrics st e) e.pipeline_id).total_executions : Rat)
          else (metricsOf st e.pipeline_id).avg_records_processed) := by
  have hlook : metricsOf (update_pipeline_metrics st e) e.pipeline_id
      = update_metrics_entry e (metricsOf st e.pipeline_id) := by
    unfold metricsOf update_pipeline_metrics
    rw [alookup_dictUpdate_self]
    rfl
  rw [hlook]
  set m := metricsOf st e.pipeline_id with hm
  have hdur : (e.duration ≠ 0 ∧ 0 < e.duration) ↔ 0 < e.duration :=
    ⟨fun h => h.2, fun h => ⟨by omega, h⟩⟩
  have hrec : (e.records_processed ≠ 0 ∧ 0 < e.records_processed)
      ↔ 0 < e.records_processed :=
    ⟨fun h => h.2, fun h => ⟨by omega, h⟩⟩
  refine ⟨update_metrics_entry_total e m, ?_, ?_⟩
  · rw [update_metrics_entry_avg_duration, update_metrics_entry_total,
      if_congr hdur rfl rfl]
    by_cases hd : 0 < e.duration
    · rw [if_pos hd, if_pos hd]
      push_cast
      ring
    · rw [if_neg hd, if_neg hd]
  · rw [update_metrics_entry_avg_records, update_metrics_entry_total,
      if_congr hrec rfl rfl]
    by_cases hr : 0 < e.records_processed
    · rw [if_pos hr, if_pos hr]
      push_cast
      ring
    · rw [if_neg hr, if_neg hr]

theorem metricsOf_ingest (st : MonitorState) (e : PipelineExecution)
    (k : Option String) :
    metricsOf (ingest st e) k
      = if e.pipeline_id = k then update_metrics_entry e (metricsOf st k)
        else metricsOf st k := by
  unfold ingest update_pipeline_metrics metricsOf
  by_cases h : e.pipeline_id = k
  · subst h
    rw [if_pos rfl]
    simp [alookup_dictUpdate_self]
  · rw [if_neg h]
    have := alookup_dictUpdate_ne
      (V := PipeMetrics) st.pipeline_metrics e.pipeline_id k zeroMetrics
      (update_metrics_entry e) (fun hc => h hc.symm)
    simp [this]

theorem ingestAll_cons (st : MonitorState) (e : PipelineExecution)
    (es : List PipelineExecution) :
    ingestAll st (e :: es) = ingestAll (ingest st e) es := rfl

theorem total_after_ingestAll (st : MonitorState) (es : List PipelineExecution)
    (k : Option String) :
    (metricsOf (ingestAll st es) k).total_executions
      = (metricsOf st k).total_executions
        + es.countP (fun r => decide (r.pipeline_id = k)) := by
  induction es generalizing st with
  | nil => simp [ingestAll]
  | cons e es ih =>
    rw [ingestAll_cons, ih, List.countP_cons, metricsOf_ingest]
    by_cases h : e.pipeline_id = k
    · rw [if_pos h, update_metrics_entry_total]
      simp [h]
      omega
    · rw [if_neg h]
      simp [h]

/-- C5: after ingesting any record sequence into a fresh monitor, every
pipeline id present in the metrics map carries a `total_executions` equal to
the number of ingested records bearing that pipeline id. -/
theorem total_executions_counts (es : List PipelineExecution) (pid : Option String)
    (h : (alookup pid (ingestAll initialState es).pipeline_metrics).isSome) :
    (metricsOf (ingestAll initialState es) pid).total_executions
      = es.countP (fun r => decide (r.pipeline_id = pid)) := by
  have hz := total_after_ingestAll initialState es pid
  simpa [initialState, metricsOf, alookup, zeroMetrics] using hz

/-- A concrete record for witnesses. -/
def execW (pid : String) (st : PipelineStatus) (dur : Int) (recs : Int)
    (t : Int) : PipelineExecution :=
  { execution_id := some "e"
    pipeline_id := some pid
    status := st
    start_time := t
    end_time := none
    duration := dur
    records_processed := recs
    team := some "team-a" }

/-- A concrete record sequence: two records for pipeline `a`, one for `b`. -/
def esW5 : List PipelineExecution :=
  [execW "a" .SUCCESS 1 1 0, execW "a" .FAILED 2 0 1, execW "b" .SUCCESS 3 0 2]

theorem total_executions_counts_witness :
    (alookup (some "a") (ingestAll initialState esW5).pipeline_metrics).isSome = true ∧
    (metricsOf (ingestAll initialState esW5) (some "a")).total_executions
      = esW5.countP (fun r => decide (r.pipeline_id = some "a")) :=
  ⟨by decide, total_executions_counts esW5 (some "a") (by decide)⟩

/-- Result of the single-id branch of the health query. -/
inductive HealthResult where
  | notFound (pipeline_id : String)
  | found (pipeline_id : String) (success_rate : Rat) (total_executions : Nat)
      (failed_executions : Nat) (avg_duration : Rat)
      (avg_records_processed : Rat) (last_execution : Option Int)
      (team : Option String)
deriving DecidableEq

/-- A bare `defaultdict` read `d[k]`: yields the entry, appending a fresh
zero-valued entry when the key is absent. -/
def dict_access (l : List (Option String × PipeMetrics)) (k : Option String) :
    PipeMetrics × List (Option String × PipeMetrics) :=
  match alookup k l with
  | some v => (v, l)
  | none => (zeroMetrics, l ++ [(k, zeroMetrics)])

/-- `PipelineMonitor.get_pipeline_health`, single-id branch
(src/src/monitors/pipeline_monitor.py lines 67-83): a `not in` membership
guard returning the not-found result, then a defaultdict read of the entry and
the `successful/total*100` success rate (0 when the total is 0).  The state
after the query is returned alongside the result so the (absence of a) side
effect of the defaultdict read on the metrics map is visible. -/
def get_pipeline_health (st : MonitorState) (pid : String) :
    HealthResult × MonitorState :=
  if (alookup (some pid) st.pipeline_metrics).isSome = false then
    (.notFound pid, st)
  else
    let a := dict_access st.pipeline_metrics (some pid)
    let metrics := a.1
    let success_rate : Rat :=
      if 0 < metrics.total_executions then
        (metrics.successful_executions : Rat) / (metrics.total_executions : Rat) * 100
      else 0
    (.found pid success_rate metrics.total_executions metrics.failed_executions
        metrics.avg_duration metrics.avg_records_processed
        metrics.last_execution metrics.team,
      { st with pipeline_metrics := a.2 })

/-- C10: querying the health of a pipeline id absent from the metrics map
returns the not-found result and leaves the monitor state — in particular the
metrics map — unchanged: the membership guard fires before any defaultdict
read could insert a zero-valued entry. -/
theorem health_unknown_id_frame (st : MonitorState) (pid : String)
    (h : alookup (some pid) st.pipeline_metrics = none) :
    get_pipeline_health st pid = (.notFound pid, st) := by
  unfold get_pipeline_health
  simp [h]

theorem health_unknown_id_frame_witness :
    alookup (some "zzz") (ingestAll initialState esW5).pipeline_metrics = none ∧
    get_pipeline_health (ingestAll initialState esW5) "zzz"
      = (.notFound "zzz", ingestAll initialState esW5) :=
  ⟨by decide, health_unknown_id_frame (ingestAll initialState esW5) "zzz" (by decide)⟩

/-- Python string truthiness applied by `metrics['team'] or 'unknown'`:
both `None` and the empty string fall back to `"unknown"`. -/
def orUnknown : Option String → String
  | none => "unknown"
  | some s => if s = "" then "unknown" else s

/-- A team's rollup entry: the `defaultdict` value of
`PipelineMonitor.get_team_metrics` (src/src/monitors/pipeline_monitor.py
lines 102-108). -/
structure TeamRollup where
  total_pipelines : Nat
  total_executions : Nat
  successful_executions : Nat
  failed_executions : Nat
  avg_success_rate : Rat
deriving DecidableEq

def zeroRollup : TeamRollup :=
  { total_pipelines := 0
    total_executions := 0
    successful_executions := 0
    failed_executions := 0
    avg_success_rate := 0 }

/-- One iteration of the grouping loop of `get_team_metrics`: add the
pipeline's counters to the rollup of its (truthiness-defaulted) team.  The
team dict is modelled as a total function with the defaultdict zero value. -/
def accumTeam (acc : String → TeamRollup) (entry : Option String × PipeMetrics) :
    String → TeamRollup :=
  fun t =>
    if t = orUnknown entry.2.team then
      let r := acc t
      { r with
        total_pipelines := r.total_pipelines + 1
        total_executions := r.total_executions + entry.2.total_executions
        successful_executions :=
          r.successful_executions + entry.2.successful_executions
        failed_executions := r.failed_executions + entry.2.failed_executions }
    else acc t

/-- The grouping loop of `get_team_metrics` over the whole snapshot, read as
a total function (the defaultdict zero value for teams never referenced). -/
def team_counts (st : MonitorState) : String → TeamRollup :=
  st.pipeline_metrics.foldl accumTeam (fun _ => zeroRollup)

/-- `PipelineMonitor.get_team_metrics` (lines 100-122), read at one team key:
group every pipeline entry under its team (`'unknown'` when falsy), sum the
execution counters, then set `avg_success_rate = successful/total*100` when
the summed total is positive (the 0.0 default is kept otherwise). -/
def get_team_metrics (st : MonitorState) (t : String) : TeamRollup :=
  if 0 < (team_counts st t).total_executions then
    { team_counts st t with avg_success_rate :=
        ((team_counts st t).successful_executions : Rat)
          / ((team_counts st t).total_executions : Rat) * 100 }
  else team_counts st t

theorem accumTeam_apply (acc : String → TeamRollup)
    (p : Option String × PipeMetrics) (t : String) :
    accumTeam acc p t
      = if t = orUnknown p.2.team then
          { acc t with
            total_pipelines := (acc t).total_pipelines + 1
            total_executions := (acc t).total_executions + p.2.total_executions
            successful_executions :=
              (acc t).successful_executions + p.2.successful_executions
            failed_executions := (acc t).failed_executions + p.2.failed_executions }
        else acc t := rfl

theorem foldl_accumTeam_fields (l : List (Option String × PipeMetrics))
    (acc : String → TeamRollup) (t : String) :
    (l.foldl accumTeam acc) t
      = { total_pipelines :=
            (acc t).total_pipelines
              + (l.filter (fun p => decide (orUnknown p.2.team = t))).length
          total_executions :=
            (acc t).total_executions
              + ((l.filter (fun p => decide (orUnknown p.2.team = t))).map
                  (fun p => p.2.total_executions)).sum
          successful_executions :=
            (acc t).successful_executions
              + ((l.filter (fun p => decide (orUnknown p.2.team = t))).map
                  (fun p => p.2.successful_executions)).sum
          failed_executions :=
            (acc t).failed_executions
              + ((l.filter (fun p => decide (orUnknown p.2.team = t))).map
                  (fun p => p.2.failed_executions)).sum
          avg_success_rate := (acc t).avg_success_rate } := by
  induction l generalizing acc with
  | nil => simp
  | cons p l ih =>
    simp only [List.foldl_cons, List.filter_cons]
    rw [ih, accumTeam_apply]
    by_cases h : orUnknown p.2.team = t
    · have ht : t = orUnknown p.2.team := h.symm
      rw [if_pos ht]
      simp only [h, decide_True, if_true, List.length_cons, List.map_cons,
        List.sum_cons]
      simp only [TeamRollup.mk.injEq]
      exact ⟨by omega, by omega, by omega, by omega, trivial⟩
    · have ht : ¬ t = orUnknown p.2.team := fun hc => h hc.symm
      rw [if_neg ht]
      simp only [h, decide_False, if_false, Bool.false_eq_true]

/-- C6: for every snapshot and team key, the team rollup sums the
total/successful/failed execution counts of exactly the pipelines grouped
under that team (the recorded team, with `"unknown"` substituted when the
team is missing), counts those pipelines, and reports `avg_success_rate` as
summed successful over summed total times 100 — a rollup of totals — with 0.0
when the summed total is 0. -/
theorem team_metrics_rollup (st : MonitorState) (t : String) :
    let grp := st.pipeline_metrics.filter (fun p => decide (orUnknown p.2.team = t))
    (get_team_metrics st t).total_pipelines = grp.length ∧
    (get_team_metrics st t).total_executions
      = (grp.map (fun p => p.2.total_executions)).sum ∧
    (get_team_metrics st t).successful_executions
      = (grp.map (fun p => p.2.successful_executions)).sum ∧
    (get_team_metrics st t).failed_executions
      = (grp.map (fun p => p.2.failed_executions)).sum ∧
    (get_team_metrics st t).avg_success_rate
      = (if 0 < (grp.map (fun p => p.2.total_executions)).sum then
          (((grp.map (fun p => p.2.successful_executions)).sum : ℕ) : Rat)
            / (((grp.map (fun p => p.2.total_executions)).sum : ℕ) : Rat) * 100
        else 0) := by
  intro grp
  have hc : team_counts st t
      = { total_pipelines := grp.length
          total_executions := (grp.map (fun p => p.2.total_executions)).sum
          successful_executions :=
            (grp.map (fun p => p.2.successful_executions)).sum
          failed_executions := (grp.map (fun p => p.2.failed_executions)).sum
          avg_success_rate := 0 } := by
    unfold team_counts
    rw [foldl_accumTeam_fields]
    simp [zeroRollup, grp]
  unfold get_team_metrics
  rw [hc]
  by_cases h : 0 < (grp.map (fun p => p.2.total_executions)).sum
  · rw [if_pos h]
    exact ⟨rfl, rfl, rfl, rfl, by rw [if_pos h]⟩
  · rw [if_neg h]
    exact ⟨rfl, rfl, rfl, rfl, by rw [if_neg h]⟩

/-- Result of `get_performance_trends`: the no-data error object or the trend
object (field order as in the source's dicts). -/
inductive TrendResult where
  | error (pipeline_id : String) (days : Int)
  | ok (pipeline_id : String) (total_executions : Nat) (success_rate : Rat)
      (avg_duration : Rat) (min_duration : Int) (max_duration : Int)
      (days_analyzed : Int)
deriving DecidableEq

/-- Python `min` over a nonempty list (0 for `[]`, used only behind the
source's emptiness guard). -/
def listMinInt : List Int → Int
  | [] => 0
  | x :: xs => xs.foldl min x

/-- Python `max` over a nonempty list (0 for `[]`, as for `listMinInt`). -/
def listMaxInt : List Int → Int
  | [] => 0
  | x :: xs => xs.foldl max x

/-- `statistics.mean` over integer samples. -/
def intListMean (l : List Int) : Rat := ((l.sum : Int) : Rat) / (l.length : Rat)

/-- A Python `datetime` as the trends query sees it: an instant together
with the presence (and offset) of `tzinfo` — `none` models a zone-naive
datetime, `some off` a zone-aware one.  `datetime.fromisoformat` yields an
aware value for offset-suffixed strings ('Z' having been rewritten to
'+00:00') and a naive one otherwise, so a single loadable log can mix
both. -/
structure PyDatetime where
  instant : Int
  tz : Option Int
deriving DecidableEq

/-- The `TypeError` Python raises when ordering a zone-naive against a
zone-aware datetime. -/
inductive CompareError where
  | naiveAwareCompare
deriving DecidableEq

/-- Python's `>=` on datetimes: defined between two naive or two aware
values (compared here by instant), raising `TypeError` between a naive and
an aware one. -/
def dtGe (a b : PyDatetime) : Except CompareError Bool :=
  if a.tz.isSome = b.tz.isSome then .ok (decide (b.instant ≤ a.instant))
  else .error .naiveAwareCompare

/-- The fields of an execution record that `get_performance_trends` reads,
with the start time carried as a full `PyDatetime`.  The rest of the
development works with uniform-zone logs and carries only the instant
(`PipelineExecution.start_time`). -/
structure TrendExecution where
  pipeline_id : Option String
  status : PipelineStatus
  start_time : PyDatetime
  duration : Int
deriving DecidableEq

/-- The list comprehension of `get_performance_trends` (lines 130-133), left
to right with Python's short-circuiting `and`: the datetime comparison is
evaluated only for records of the queried pipeline, and its first
`TypeError` aborts the whole query. -/
def filterRecent (pid : String) (cutoff : PyDatetime) :
    List TrendExecution → Except CompareError (List TrendExecution)
  | [] => .ok []
  | e :: es =>
    if e.pipeline_id = some pid then
      match dtGe e.start_time cutoff with
      | .error err => .error err
      | .ok b => do
        let rest ← filterRecent pid cutoff es
        .ok (if b then e :: rest else rest)
    else filterRecent pid cutoff es

/-- `PipelineMonitor.get_performance_trends` (lines 124-149) with Python's
timezone semantics.  `datetime.now()` is zone-naive; its instant is passed
as `now`.  Line 128 re-zones the cutoff, keeping its stored value, to the
tzinfo of the first ever-loaded record (exact for naive and for UTC-offset
logs; a non-UTC offset would additionally shift the effective cutoff, which
no claim touches).  Each start-time comparison of the filter can then raise
`TypeError` when the log mixes naive and aware start times: a raise is the
`.error` of the outer `Except`, and both structured outcomes are `.ok`. -/
def get_performance_trends (executions : List TrendExecution) (pid : String)
    (days : Int) (now : Int) : Except CompareError TrendResult :=
  let cutoff0 : PyDatetime := { instant := now - days * 86400, tz := none }
  let cutoff : PyDatetime :=
    match executions with
    | [] => cutoff0
    | e0 :: _ => { cutoff0 with tz := e0.start_time.tz }
  match filterRecent pid cutoff executions with
  | .error err => .error err
  | .ok recent =>
    if recent.isEmpty then .ok (.error pid days)
    else
      let durations := (recent.filter (fun e => decide (0 < e.duration))).map
        (fun e => e.duration)
      let success_count := recent.countP (fun e => e.status == .SUCCESS)
      .ok (.ok pid recent.length
        ((success_count : Rat) / (recent.length : Rat) * 100)
        (if durations.isEmpty then 0 else intListMean durations)
        (if durations.isEmpty then 0 else listMinInt durations)
        (if durations.isEmpty then 0 else listMaxInt durations)
        days)

/-- An aware-start-time record ('Z'-suffixed timestamp) of pipeline `p`. -/
def teAware : TrendExecution :=
  { pipeline_id := some "p"
    status := .SUCCESS
    start_time := { instant := 0, tz := some 0 }
    duration := 5 }

/-- A naive-start-time record (offset-free timestamp) of pipeline `p`. -/
def teNaive : TrendExecution :=
  { pipeline_id := some "p"
    status := .SUCCESS
    start_time := { instant := 0, tz := none }
    duration := 5 }

/-- C7 counterexample: on a loadable log that mixes a zone-aware and a
zone-naive start time for the queried pipeline, the trends query raises
(`TypeError` comparing offset-naive and offset-aware datetimes) instead of
returning a structured result — the claim's "never raises" fails. -/
theorem performance_trends_mixed_tz_raises :
    get_performance_trends [teAware, teNaive] "p" 7 10
      = .error .naiveAwareCompare := by
  rfl

theorem filterRecent_of_uniform (pid : String) (cutoff : PyDatetime)
    (l : List TrendExecution)
    (h : ∀ e ∈ l, e.start_time.tz.isSome = cutoff.tz.isSome) :
    filterRecent pid cutoff l
      = .ok (l.filter (fun e =>
          decide (e.pipeline_id = some pid)
            && decide (cutoff.instant ≤ e.start_time.instant))) := by
  induction l with
  | nil => rfl
  | cons e es ih =>
    have he := h e (List.mem_cons_self e es)
    have hrest : ∀ x ∈ es, x.start_time.tz.isSome = cutoff.tz.isSome :=
      fun x hx => h x (List.mem_cons_of_mem e hx)
    simp only [filterRecent, List.filter_cons]
    by_cases hp : e.pipeline_id = some pid
    · rw [if_pos hp]
      unfold dtGe
      rw [if_pos he, ih hrest]
      by_cases hb : cutoff.instant ≤ e.start_time.instant <;>
        simp [hp, hb, Except.bind, bind]
    · rw [if_neg hp, ih hrest]
      simp [hp]

/-- C7 (amended): for every loaded record log whose start times do not mix
zone-naive and zone-aware values (every record's tzinfo presence agrees
with the first loaded record's — as holds for the uniform-zone logs the
rest of this development models), every pipeline id and every positive day
count, the trends query raises nothing: it returns the structured error
result exactly when no record of that pipeline starts at or after the
cutoff, and otherwise the success rate over the filtered records and the
min/avg/max duration over the filtered records with positive duration, each
of those 0 when no positive duration exists. -/
theorem performance_trends_uniform_tz_spec (executions : List TrendExecution)
    (pid : String) (days now : Int) (hdays : 0 < days)
    (htz : ∀ e ∈ executions, e.start_time.tz.isSome
        = executions.head?.elim false (fun e0 => e0.start_time.tz.isSome)) :
    let recent := executions.filter (fun e =>
      decide (e.pipeline_id = some pid)
        && decide (now - days * 86400 ≤ e.start_time.instant))
    let durations := (recent.filter (fun e => decide (0 < e.duration))).map
      (fun e => e.duration)
    (∃ r, get_performance_trends executions pid days now = .ok r) ∧
    (get_performance_trends executions pid days now = .ok (.error pid days)
        ↔ recent = []) ∧
    (recent ≠ [] →
      get_performance_trends executions pid days now
        = .ok (.ok pid recent.length
            ((recent.countP (fun e => e.status == .SUCCESS) : Rat)
              / (recent.length : Rat) * 100)
            (if durations = [] then 0 else intListMean durations)
            (if durations = [] then 0 else listMinInt durations)
            (if durations = [] then 0 else listMaxInt durations)
            days)) := by
  intro recent durations
  unfold get_performance_trends
  cases executions with
  | nil =>
    refine ⟨⟨.error pid days, rfl⟩, ⟨fun _ => rfl, fun _ => rfl⟩, fun hc => ?_⟩
    exact absurd rfl hc
  | cons e0 es =>
    have huni : ∀ e ∈ e0 :: es,
        e.start_time.tz.isSome
          = ({ instant := now - days * 86400,
               tz := e0.start_time.tz } : PyDatetime).tz.isSome := by
      intro e hmm
      exact htz e hmm
    have hfr := filterRecent_of_uniform pid
      { instant := now - days * 86400, tz := e0.start_time.tz } (e0 :: es) huni
    simp only [hfr]
    by_cases h : recent.isEmpty
    · have h' : recent = [] := List.isEmpty_iff.mp h
      simp only [recent] at h
      rw [if_pos h]
      exact ⟨⟨.error pid days, rfl⟩, ⟨fun _ => h', fun _ => rfl⟩,
        fun hc => absurd h' hc⟩
    · have h' : recent ≠ [] := fun hc => h (by simp [hc])
      simp only [recent] at h
      rw [if_neg h]
      refine ⟨⟨_, rfl⟩, ⟨fun hc => absurd hc (by simp), fun hc => absurd hc h'⟩,
        fun _ => ?_⟩
      simp [recent, durations, List.isEmpty_iff]

/-- Two uniformly zone-aware records of pipeline `a`, one SUCCESS with
duration 1 and one FAILED with duration 2, both inside the window. -/
def teW1 : TrendExecution :=
  { pipeline_id := some "a"
    status := .SUCCESS
    start_time := { instant := 0, tz := some 0 }
    duration := 1 }

def teW2 : TrendExecution :=
  { pipeline_id := some "a"
    status := .FAILED
    start_time := { instant := 1, tz := some 0 }
    duration := 2 }

theorem performance_trends_uniform_tz_spec_witness :
    (0 : Int) < 7 ∧
    get_performance_trends [teW1, teW2] "a" 7 10
      = .ok (.ok "a" 2 50 (3/2) 1 2 7) := by
  refine ⟨by decide, ?_⟩
  have h := performance_trends_uniform_tz_spec [teW1, teW2] "a" 7 10
    (by decide) (by decide)
  rw [h.2.2 (by decide)]
  simp +decide [teW1, teW2, intListMean, listMinInt, listMaxInt]
  norm_num

/-- Detector configuration (`AnomalyDetector.__init__`,
src/src/monitors/anomaly_detector.py lines 34-36). -/
structure DetectorConfig where
  min_executions : Nat
  min_data_points : Nat
deriving DecidableEq

/-- The source's defaults: `min_executions = 5`, `min_data_points = 3`. -/
def defaultConfig : DetectorConfig := { min_executions := 5, min_data_points := 3 }

/-- Embedded alert (src/src/models/alert.py).  The templated message (pure
string formatting of already-checked numbers) and the `datetime.now()`
creation timestamp carry no verified content and are omitted. -/
structure Alert where
  pipeline_id : Option String
  severity : AlertSeverity
  team : String
deriving DecidableEq

/-- `statistics.mean`. -/
def listMean (l : List Rat) : Rat := l.sum / (l.length : Rat)

/-- The sample variance underlying `statistics.stdev` (denominator `n - 1`). -/
def sampleVariance (l : List Rat) : Rat :=
  (l.map (fun x => (x - listMean l) ^ 2)).sum / ((l.length : Rat) - 1)

/-- `s = statistics.stdev l`: at least two data points (or the library
raises), and `s` is the nonnegative square root of the sample variance.  The
square root of a rational is irrational in general, so detector functions
receive the standard deviation as an argument constrained by this
predicate. -/
def IsSampleStdev (l : List Rat) (s : Rat) : Prop :=
  2 ≤ l.length ∧ 0 ≤ s ∧ s ^ 2 = sampleVariance l

/-- `AnomalyDetector._collect_metric_values` (lines 38-55): metric values of
pipelines meeting `min_executions`, filtered by the condition closure (every
embedded metrics entry carries every metric key, so the source's
`is not None` test always passes here). -/
def collect_metric_values (cfg : DetectorConfig)
    (pm : List (Option String × PipeMetrics)) (metric : PipeMetrics → Rat)
    (condition : Rat → Bool) : List Rat :=
  pm.filterMap (fun p =>
    if cfg.min_executions ≤ p.2.total_executions ∧ condition (metric p.2) then
      some (metric p.2)
    else none)

/-- `AnomalyDetector._detect_anomalies` (lines 57-106), with the per-metric
closures passed in as in the source.  `stdev_val` stands for
`statistics.stdev values` (see `IsSampleStdev`); `metric_value` returns
`none` exactly where the source's success-rate recomputation yields `None`.
The `threshold_func` of the source feeds only the alert message and is
elided with it; every `check_func` recomputes the threshold itself, as in
the source. -/
def detect_anomalies (cfg : DetectorConfig)
    (pm : List (Option String × PipeMetrics)) (values : List Rat)
    (stdev_val : Rat) (metric_value : PipeMetrics → Option Rat)
    (check : Rat → Rat → Rat → Bool) (severity : Rat → AlertSeverity) :
    List Alert :=
  if values.length < cfg.min_data_points then []
  else
    let mean_val := listMean values
    pm.filterMap (fun p =>
      if p.2.total_executions < cfg.min_executions then none
      else
        match metric_value p.2 with
        | none => none
        | some value =>
          if check mean_val stdev_val value then
            some { pipeline_id := p.1
                   severity := severity |mean_val - value|
                   team := orUnknown p.2.team }
          else none)

/-- The peer sample of `detect_success_rate_anomalies` (lines 115-119):
recomputed success rates of the pipelines with
`total_executions ≥ min_executions` (and `> 0`, from the walrus guard). -/
def success_rate_values (cfg : DetectorConfig)
    (pm : List (Option String × PipeMetrics)) : List Rat :=
  pm.filterMap (fun p =>
    if cfg.min_executions ≤ p.2.total_executions ∧ 0 < p.2.total_executions then
      some ((p.2.successful_executions : Rat) / (p.2.total_executions : Rat) * 100)
    else none)

/-- The in-loop success-rate recomputation of `_detect_anomalies` (lines
86-89): `successful/total*100`, `None` when the total is 0. -/
def success_rate_value (m : PipeMetrics) : Option Rat :=
  if 0 < m.total_executions then
    some ((m.successful_executions : Rat) / (m.total_executions : Rat) * 100)
  else none

/-- Success-rate threshold (lines 121-124): `mean - SR_SIGMA * adj_stdev`,
`SR_SIGMA = 1.0`, with `adj_stdev = stdev if stdev > 0 else 5.0`. -/
def sr_threshold (mean stdev : Rat) : Rat :=
  mean - 1 * (if 0 < stdev then stdev else 5)

def sr_check (mean stdev value : Rat) : Bool :=
  decide (value < sr_threshold mean stdev)

/-- Success-rate severity (lines 135-140): HIGH above the 30-point delta. -/
def sr_severity (deviation : Rat) : AlertSeverity :=
  if 30 < deviation then .HIGH else .MEDIUM

/-- `AnomalyDetector.detect_success_rate_anomalies` (lines 108-150). -/
def detect_success_rate_anomalies (cfg : DetectorConfig)
    (pm : List (Option String × PipeMetrics)) (stdev_val : Rat) : List Alert :=
  detect_anomalies cfg pm (success_rate_values cfg pm) stdev_val
    success_rate_value sr_check sr_severity

/-- Duration threshold (lines 158-159): `mean + DURATION_SIGMA * stdev`,
`DURATION_SIGMA = 2.0`, no stdev-zero fallback. -/
def dur_threshold (mean stdev : Rat) : Rat := mean + 2 * stdev

def dur_check (mean stdev value : Rat) : Bool :=
  decide (dur_threshold mean stdev < value)

/-- Duration severity (lines 167-172): HIGH above the 100-second delta. -/
def dur_severity (deviation : Rat) : AlertSeverity :=
  if 100 < deviation then .HIGH else .MEDIUM

/-- The duration peer sample (line 174): `avg_duration` values `> 0` of
pipelines meeting `min_executions`. -/
def avg_duration_values (cfg : DetectorConfig)
    (pm : List (Option String × PipeMetrics)) : List Rat :=
  collect_metric_values cfg pm (fun m => m.avg_duration)
    (fun v => decide (0 < v))

/-- `AnomalyDetector.detect_duration_anomalies` (lines 152-183). -/
def detect_duration_anomalies (cfg : DetectorConfig)
    (pm : List (Option String × PipeMetrics)) (stdev_val : Rat) : List Alert :=
  detect_anomalies cfg pm (avg_duration_values cfg pm) stdev_val
    (fun m => some m.avg_duration) dur_check dur_severity

/-- Records threshold (lines 191-192): `mean - RECORDS_SIGMA * stdev`,
`RECORDS_SIGMA = 2.0`, no stdev-zero fallback. -/
def rec_threshold (mean stdev : Rat) : Rat := mean - 2 * stdev

def rec_check (mean stdev value : Rat) : Bool :=
  decide (value < rec_threshold mean stdev)

/-- Records severity (lines 200-205): HIGH above the 1000-record delta. -/
def rec_severity (deviation : Rat) : AlertSeverity :=
  if 1000 < deviation then .HIGH else .MEDIUM

/-- The records peer sample (line 207): `avg_records_processed` values `> 0`
of pipelines meeting `min_executions`. -/
def avg_records_values (cfg : DetectorConfig)
    (pm : List (Option String × PipeMetrics)) : List Rat :=
  collect_metric_values cfg pm (fun m => m.avg_records_processed)
    (fun v => decide (0 < v))

/-- `AnomalyDetector.detect_records_anomalies` (lines 185-216). -/
def detect_records_anomalies (cfg : DetectorConfig)
    (pm : List (Option String × PipeMetrics)) (stdev_val : Rat) : List Alert :=
  detect_anomalies cfg pm (avg_records_values cfg pm) stdev_val
    (fun m => some m.avg_records_processed) rec_check rec_severity

/-- `AnomalyDetector.detect_all_anomalies` (lines 218-224): the three passes
concatenated, success rate first, then duration, then records.  Each pass's
standard deviation is its own, computed from its own peer sample. -/
def detect_all_anomalies (cfg : DetectorConfig)
    (pm : List (Option String × PipeMetrics)) (s_sr s_dur s_rec : Rat) :
    List Alert :=
  detect_success_rate_anomalies cfg pm s_sr
    ++ detect_duration_anomalies cfg pm s_dur
    ++ detect_records_anomalies cfg pm s_rec

/-- C4: whenever a metric's peer value list is shorter than
`min_data_points`, that metric's pass emits no alerts at all, however extreme
any pipeline's value is (the guard fires before any threshold is computed,
for any standard deviation); and the full run is just the concatenation of
the three independent passes, so the other metrics are unaffected. -/
theorem insufficient_sample_no_alerts (cfg : DetectorConfig)
    (pm : List (Option String × PipeMetrics)) (s_sr s_dur s_rec : Rat) :
    ((success_rate_values cfg pm).length < cfg.min_data_points →
      detect_success_rate_anomalies cfg pm s_sr = []) ∧
    ((avg_duration_values cfg pm).length < cfg.min_data_points →
      detect_duration_anomalies cfg pm s_dur = []) ∧
    ((avg_records_values cfg pm).length < cfg.min_data_points →
      detect_records_anomalies cfg pm s_rec = []) ∧
    detect_all_anomalies cfg pm s_sr s_dur s_rec
      = detect_success_rate_anomalies cfg pm s_sr
          ++ detect_duration_anomalies cfg pm s_dur
          ++ detect_records_anomalies cfg pm s_rec := by
  refine ⟨fun h => ?_, fun h => ?_, fun h => ?_, rfl⟩ <;>
    simp only [detect_success_rate_anomalies, detect_duration_anomalies,
      detect_records_anomalies, detect_anomalies] <;>
    rw [if_pos h]

/-- A one-eligible-pipeline snapshot with extreme duration and records
values: every peer sample has a single element. -/
def pmW4 : List (Option String × PipeMetrics) :=
  [(some "solo",
    { total_executions := 5
      successful_executions := 5
      failed_executions := 0
      avg_duration := 10000
      avg_records_processed := 1
      last_execution := some 0
      team := some "team-a" })]

theorem insufficient_sample_no_alerts_witness :
    (success_rate_values defaultConfig pmW4).length < 3 ∧
    detect_all_anomalies defaultConfig pmW4 0 0 0 = [] := by
  have h := insufficient_sample_no_alerts defaultConfig pmW4 0 0 0
  have h1 : (success_rate_values defaultConfig pmW4).length < 3 := by
    simp +decide [success_rate_values, pmW4, defaultConfig]
  have h2 : (avg_duration_values defaultConfig pmW4).length < 3 := by
    simp +decide [avg_duration_values, collect_metric_values, pmW4, defaultConfig]
  have h3 : (avg_records_values defaultConfig pmW4).length < 3 := by
    simp +decide [avg_records_values, collect_metric_values, pmW4, defaultConfig]
  refine ⟨h1, ?_⟩
  rw [h.2.2.2, h.1 h1, h.2.1 h2, h.2.2.1 h3]
  rfl

theorem nodup_key_unique {K V : Type} [DecidableEq K] {l : List (K × V)}
    (h : (l.map Prod.fst).Nodup) {k : K} {v v' : V}
    (h1 : (k, v) ∈ l) (h2 : (k, v') ∈ l) : v = v' := by
  induction l with
  | nil => cases h1
  | cons p l ih =>
    rw [List.map_cons, List.nodup_cons] at h
    rcases List.mem_cons.mp h1 with e1 | m1 <;>
      rcases List.mem_cons.mp h2 with e2 | m2
    · rw [← e2] at e1
      exact (Prod.mk.injEq k v k v' ▸ e1).2
    · have hk : k ∈ l.map Prod.fst := List.mem_map_of_mem Prod.fst m2
      rw [← e1] at h
      exact absurd hk h.1
    · have hk : k ∈ l.map Prod.fst := List.mem_map_of_mem Prod.fst m1
      rw [← e2] at h
      exact absurd hk h.1
    · exact ih h.2 m1 m2

/-- Membership in the output of the generic `_detect_anomalies` loop, once
the minimum-sample guard has passed: an alert is emitted exactly for the
snapshot entries meeting `min_executions` whose (defined) metric value fails
the check, and it carries the severity of the absolute deviation from the
peer mean. -/
theorem mem_detect_anomalies (cfg : DetectorConfig)
    (pm : List (Option String × PipeMetrics)) (values : List Rat)
    (stdev_val : Rat) (metric_value : PipeMetrics → Option Rat)
    (check : Rat → Rat → Rat → Bool) (severity : Rat → AlertSeverity)
    (hlen : cfg.min_data_points ≤ values.length) (a : Alert) :
    a ∈ detect_anomalies cfg pm values stdev_val metric_value check severity
      ↔ ∃ p ∈ pm, cfg.min_executions ≤ p.2.total_executions ∧
          ∃ v, metric_value p.2 = some v ∧
            check (listMean values) stdev_val v = true ∧
            a = { pipeline_id := p.1
                  severity := severity |listMean values - v|
                  team := orUnknown p.2.team } := by
  unfold detect_anomalies
  rw [if_neg (not_lt.mpr hlen), List.mem_filterMap]
  constructor
  · rintro ⟨p, hp, hf⟩
    refine ⟨p, hp, ?_⟩
    by_cases h1 : p.2.total_executions < cfg.min_executions
    · simp [h1] at hf
    · cases hmv : metric_value p.2 with
      | none => simp [h1, hmv] at hf
      | some v =>
        by_cases hc : check (listMean values) stdev_val v = true
        · simp [h1, hmv, hc] at hf
          exact ⟨not_lt.mp h1, v, rfl, hc, hf.symm⟩
        · simp [h1, hmv, hc] at hf
  · rintro ⟨p, hp, h1, v, hmv, hc, ha⟩
    exact ⟨p, hp, by simp [not_lt.mpr h1, hmv, hc, ha]⟩

/-- C2: once the success-rate peer sample (rates of pipelines meeting
`min_executions`) holds at least `min_data_points` values, an eligible
pipeline is alerted by the success-rate pass exactly when its freshly
recomputed rate `successful/total*100` is strictly below
`mean - 1*stdev` of the peer sample, with the stdev replaced by 5.0 when the
sample standard deviation is 0; the emitted alert is HIGH when the absolute
deviation from the peer mean exceeds 30 and MEDIUM otherwise. -/
theorem success_rate_anomaly_iff (cfg : DetectorConfig)
    (pm : List (Option String × PipeMetrics)) (s : Rat) (pid : Option String)
    (m : PipeMetrics)
    (hmin : 1 ≤ cfg.min_executions)
    (hnd : (pm.map Prod.fst).Nodup)
    (hs : IsSampleStdev (success_rate_values cfg pm) s)
    (hlen : cfg.min_data_points ≤ (success_rate_values cfg pm).length)
    (hmem : (pid, m) ∈ pm)
    (helig : cfg.min_executions ≤ m.total_executions) :
    ((∃ a ∈ detect_success_rate_anomalies cfg pm s, a.pipeline_id = pid)
        ↔ (m.successful_executions : Rat) / (m.total_executions : Rat) * 100
            < listMean (success_rate_values cfg pm)
                - 1 * (if s = 0 then 5 else s)) ∧
    ∀ a ∈ detect_success_rate_anomalies cfg pm s, a.pipeline_id = pid →
      a.severity
        = (if 30 < |listMean (success_rate_values cfg pm)
                - (m.successful_executions : Rat) / (m.total_executions : Rat) * 100|
          then AlertSeverity.HIGH else AlertSeverity.MEDIUM) := by
  have hpos : 0 < m.total_executions :=
    lt_of_lt_of_le Nat.zero_lt_one (le_trans hmin helig)
  set mean := listMean (success_rate_values cfg pm) with hmean
  set rate := (m.successful_executions : Rat) / (m.total_executions : Rat) * 100
    with hrate
  have hthr : sr_threshold mean s = mean - 1 * (if s = 0 then 5 else s) := by
    unfold sr_threshold
    by_cases h0 : s = 0
    · rw [if_neg (by rw [h0]; exact lt_irrefl 0), if_pos h0]
    · rw [if_pos (lt_of_le_of_ne hs.2.1 (Ne.symm h0)), if_neg h0]
  have hchar := mem_detect_anomalies cfg pm (success_rate_values cfg pm) s
    success_rate_value sr_check sr_severity hlen
  have hsrv : success_rate_value m = some rate := by
    unfold success_rate_value
    rw [if_pos hpos]
  constructor
  · constructor
    · rintro ⟨a, ha, hapid⟩
      rcases (hchar a).mp ha with ⟨p, hp, hle, v, hmv, hc, haeq⟩
      have hppid : p.1 = pid := by rw [haeq] at hapid; exact hapid
      have hpm : (pid, p.2) ∈ pm := by
        have : p = (pid, p.2) := Prod.ext hppid rfl
        exact this ▸ hp
      have hp2 : p.2 = m := nodup_key_unique hnd hpm hmem
      rw [hp2, hsrv] at hmv
      have hv : v = rate := (Option.some_inj.mp hmv).symm
      rw [hv] at hc
      have := of_decide_eq_true hc
      rwa [hthr] at this
    · intro hlt
      have hc : sr_check mean s rate = true :=
        decide_eq_true (by rwa [hthr])
      refine ⟨{ pipeline_id := pid
                severity := sr_severity |mean - rate|
                team := orUnknown m.team }, ?_, rfl⟩
      exact (hchar _).mpr ⟨(pid, m), hmem, helig, rate, hsrv, hc, rfl⟩
  · intro a ha hapid
    rcases (hchar a).mp ha with ⟨p, hp, hle, v, hmv, hc, haeq⟩
    have hppid : p.1 = pid := by rw [haeq] at hapid; exact hapid
    have hpm : (pid, p.2) ∈ pm := by
      have : p = (pid, p.2) := Prod.ext hppid rfl
      exact this ▸ hp
    have hp2 : p.2 = m := nodup_key_unique hnd hpm hmem
    rw [hp2, hsrv] at hmv
    have hv : v = rate := (Option.some_inj.mp hmv).symm
    rw [haeq, hv]
    rfl

/-- A snapshot entry for detector witnesses. -/
def mkPM (succ total : Nat) (dur recs : Rat) : PipeMetrics :=
  { total_executions := total
    successful_executions := succ
    failed_executions := total - succ
    avg_duration := dur
    avg_records_processed := recs
    last_execution := some 0
    team := some "team-a" }

/-- Three 100%-success peers and one 0%-success pipeline, all eligible. -/
def pmW2 : List (Option String × PipeMetrics) :=
  [(some "a", mkPM 5 5 10 10), (some "b", mkPM 5 5 10 10),
   (some "c", mkPM 5 5 10 10), (some "d", mkPM 0 5 10 10)]

theorem success_rate_values_pmW2 :
    success_rate_values defaultConfig pmW2 = [100, 100, 100, 0] := by
  simp +decide [success_rate_values, pmW2, mkPM, defaultConfig]

theorem success_rate_anomaly_iff_witness :
    IsSampleStdev (success_rate_values defaultConfig pmW2) 50 ∧
    (∃ a ∈ detect_success_rate_anomalies defaultConfig pmW2 50,
        a.pipeline_id = some "d") := by
  have hs : IsSampleStdev (success_rate_values defaultConfig pmW2) 50 := by
    rw [success_rate_values_pmW2]
    refine ⟨by decide, by norm_num, ?_⟩
    norm_num [sampleVariance, listMean]
  refine ⟨hs, ?_⟩
  have h := success_rate_anomaly_iff defaultConfig pmW2 50 (some "d")
    (mkPM 0 5 10 10) (by decide) (by decide) hs
    (by rw [success_rate_values_pmW2]; decide)
    (by simp [pmW2]) (by decide)
  refine h.1.mpr ?_
  rw [success_rate_values_pmW2]
  norm_num [listMean, mkPM]

theorem collect_metric_values_eq_filter (cfg : DetectorConfig)
    (pm : List (Option String × PipeMetrics)) (metric : PipeMetrics → Rat)
    (condition : Rat → Bool) :
    collect_metric_values cfg pm metric condition
      = (pm.filter (fun p =>
            decide (cfg.min_executions ≤ p.2.total_executions)
              && condition (metric p.2))).map (fun p => metric p.2) := by
  induction pm with
  | nil => rfl
  | cons p l ih =>
    simp only [collect_metric_values, List.filterMap_cons, List.filter_cons]
      at ih ⊢
    by_cases h1 : cfg.min_executions ≤ p.2.total_executions <;>
      by_cases h2 : condition (metric p.2) = true <;>
      simp [h1, h2, ih]

/-- C3: the duration peer sample is exactly the positive `avg_duration`
values of pipelines meeting `min_executions`; once it holds at least
`min_data_points` values, an eligible pipeline is alerted by the duration
pass exactly when its `avg_duration` exceeds `mean + 2*stdev` of the peer
sample (there is no stdev-zero fallback: stdev 0 leaves the bare mean as
threshold); the emitted alert is HIGH when the absolute deviation from the
peer mean exceeds 100 and MEDIUM otherwise. -/
theorem duration_anomaly_iff (cfg : DetectorConfig)
    (pm : List (Option String × PipeMetrics)) (s : Rat) (pid : Option String)
    (m : PipeMetrics)
    (hnd : (pm.map Prod.fst).Nodup)
    (hs : IsSampleStdev (avg_duration_values cfg pm) s)
    (hlen : cfg.min_data_points ≤ (avg_duration_values cfg pm).length)
    (hmem : (pid, m) ∈ pm)
    (helig : cfg.min_executions ≤ m.total_executions) :
    avg_duration_values cfg pm
      = (pm.filter (fun p =>
            decide (cfg.min_executions ≤ p.2.total_executions)
              && decide (0 < p.2.avg_duration))).map (fun p => p.2.avg_duration) ∧
    ((∃ a ∈ detect_duration_anomalies cfg pm s, a.pipeline_id = pid)
        ↔ listMean (avg_duration_values cfg pm) + 2 * s < m.avg_duration) ∧
    ∀ a ∈ detect_duration_anomalies cfg pm s, a.pipeline_id = pid →
      a.severity
        = (if 100 < |listMean (avg_duration_values cfg pm) - m.avg_duration|
          then AlertSeverity.HIGH else AlertSeverity.MEDIUM) := by
  set mean := listMean (avg_duration_values cfg pm) with hmean
  have hchar := mem_detect_anomalies cfg pm (avg_duration_values cfg pm) s
    (fun mm => some mm.avg_duration) dur_check dur_severity hlen
  refine ⟨collect_metric_values_eq_filter cfg pm (fun mm => mm.avg_duration)
    (fun v => decide (0 < v)), ?_, ?_⟩
  · constructor
    · rintro ⟨a, ha, hapid⟩
      rcases (hchar a).mp ha with ⟨p, hp, hle, v, hmv, hc, haeq⟩
      have hppid : p.1 = pid := by rw [haeq] at hapid; exact hapid
      have hpm : (pid, p.2) ∈ pm := by
        have : p = (pid, p.2) := Prod.ext hppid rfl
        exact this ▸ hp
      have hp2 : p.2 = m := nodup_key_unique hnd hpm hmem
      rw [hp2] at hmv
      have hv : v = m.avg_duration := (Option.some_inj.mp hmv).symm
      rw [hv] at hc
      exact of_decide_eq_true hc
    · intro hlt
      have hc : dur_check mean s m.avg_duration = true := decide_eq_true hlt
      refine ⟨{ pipeline_id := pid
                severity := dur_severity |mean - m.avg_duration|
                team := orUnknown m.team }, ?_, rfl⟩
      exact (hchar _).mpr ⟨(pid, m), hmem, helig, m.avg_duration, rfl, hc, rfl⟩
  · intro a ha hapid
    rcases (hchar a).mp ha with ⟨p, hp, hle, v, hmv, hc, haeq⟩
    have hppid : p.1 = pid := by rw [haeq] at hapid; exact hapid
    have hpm : (pid, p.2) ∈ pm := by
      have : p = (pid, p.2) := Prod.ext hppid rfl
      exact this ▸ hp
    have hp2 : p.2 = m := nodup_key_unique hnd hpm hmem
    rw [hp2] at hmv
    have hv : v = m.avg_duration := (Option.some_inj.mp hmv).symm
    rw [haeq, hv]
    rfl

/-- Seven peers with average durations 9, 9, 4, 4, 5, 5, 6 and one eligible
pipeline at 22: the sample mean is 8 and the sample stdev is exactly 6, so
the threshold is 20 and only the last pipeline is flagged. -/
def pmW3 : List (Option String × PipeMetrics) :=
  [(some "p1", mkPM 5 5 9 10), (some "p2", mkPM 5 5 9 10),
   (some "p3", mkPM 5 5 4 10), (some "p4", mkPM 5 5 4 10),
   (some "p5", mkPM 5 5 5 10), (some "p6", mkPM 5 5 5 10),
   (some "p7", mkPM 5 5 6 10), (some "p8", mkPM 5 5 22 10)]

theorem avg_duration_values_pmW3 :
    avg_duration_values defaultConfig pmW3 = [9, 9, 4, 4, 5, 5, 6, 22] := by
  simp +decide [avg_duration_values, collect_metric_values, pmW3, mkPM,
    defaultConfig]

theorem duration_anomaly_iff_witness :
    IsSampleStdev (avg_duration_values defaultConfig pmW3) 6 ∧
    (∃ a ∈ detect_duration_anomalies defaultConfig pmW3 6,
        a.pipeline_id = some "p8") := by
  have hs : IsSampleStdev (avg_duration_values defaultConfig pmW3) 6 := by
    rw [avg_duration_values_pmW3]
    refine ⟨by decide, by norm_num, ?_⟩
    norm_num [sampleVariance, listMean]
  refine ⟨hs, ?_⟩
  have h := duration_anomaly_iff defaultConfig pmW3 6 (some "p8")
    (mkPM 5 5 22 10) (by decide) hs
    (by rw [avg_duration_values_pmW3]; decide)
    (by simp [pmW3]) (by decide)
  refine h.2.1.mpr ?_
  rw [avg_duration_values_pmW3]
  norm_num [listMean, mkPM]

/-- A JSON field as seen by `from_json`: the key may be missing from the
record dict, present with a `null` value, or present with a value. -/
inductive JField (α : Type) where
  | missing
  | null
  | val (a : α)
deriving DecidableEq

/-- One parsed JSON line of the data file, field names as in the source.
Timestamps are already-valid integer instants; a missing key models
`KeyError` and `null` models Python `None`. -/
structure RawRecord where
  execution_id : JField String
  pipeline_id : JField String
  status : JField String
  start_time : JField Int
  end_time : JField Int
  duration : JField Int
  records_processed : JField Int
  team : JField String
deriving DecidableEq

/-- The ways the embedded `from_json`/`__init__` pipeline can raise:
`data[...]` on a missing key (`KeyError`), or the start-time normalisation on
a `None` start time (`AttributeError` on `None.replace`). -/
inductive LoadError where
  | keyError (field : String)
  | nullStartTime
deriving DecidableEq

/-- `PipelineStatus(status)` with the `except ValueError: UNKNOWN` fallback
(src/src/models/pipeline_execution.py lines 15-18).  A `None` status also
raises `ValueError` inside the enum constructor and so coerces to UNKNOWN. -/
def parseStatus : Option String → PipelineStatus
  | some "RUNNING" => .RUNNING
  | some "SUCCESS" => .SUCCESS
  | some "FAILED" => .FAILED
  | some "CANCELLED" => .CANCELLED
  | some "TIMEOUT" => .TIMEOUT
  | _ => .UNKNOWN

/-- `data[name]`: `KeyError` when the key is missing, otherwise the possibly
`None` value. -/
def jfieldRead {α : Type} (name : String) : JField α → Except LoadError (Option α)
  | .missing => .error (.keyError name)
  | .null => .ok none
  | .val a => .ok (some a)

/-- The `None`-or-value view of a present field. -/
def JField.toOption {α : Type} : JField α → Option α
  | .missing => none
  | .null => none
  | .val a => some a

theorem jfieldRead_of_ne_missing {α : Type} (name : String) (f : JField α)
    (h : f ≠ .missing) : jfieldRead name f = .ok f.toOption := by
  cases f with
  | missing => exact absurd rfl h
  | null => rfl
  | val a => rfl

/-- `PipelineExecution.from_json` followed by `__init__`
(src/src/models/pipeline_execution.py).  Every one of the eight keys is read
by plain `data[...]` indexing — in the argument order of the constructor
call — so a missing key raises `KeyError` no matter whether the field is
semantically optional.  The constructor then coerces the status, requires a
non-`None` start time, and applies the `None` defaults: `end_time` stays
empty, `duration` and `records_processed` become 0. -/
def from_json (r : RawRecord) : Except LoadError PipelineExecution := do
  let execution_id ← jfieldRead "execution_id" r.execution_id
  let pipeline_id ← jfieldRead "pipeline_id" r.pipeline_id
  let status ← jfieldRead "status" r.status
  let start? ← jfieldRead "start_time" r.start_time
  let end? ← jfieldRead "end_time" r.end_time
  let duration? ← jfieldRead "duration" r.duration
  let records? ← jfieldRead "records_processed" r.records_processed
  let team ← jfieldRead "team" r.team
  match start? with
  | none => .error .nullStartTime
  | some t =>
    .ok { execution_id := execution_id
          pipeline_id := pipeline_id
          status := parseStatus status
          start_time := t
          end_time := end?
          duration := duration?.getD 0
          records_processed := records?.getD 0
          team := team }

/-- `PipelineMonitor.load_executions` (lines 31-39) over the already-split
non-blank lines: parse each record in order, appending it to the log and
aggregating it; the first parse failure propagates at once.  The loop has no
rollback, so earlier records stay ingested in the returned state. -/
def load_executions (st : MonitorState) :
    List RawRecord → MonitorState × Option LoadError
  | [] => (st, none)
  | r :: rest =>
    match from_json r with
    | .error e => (st, some e)
    | .ok ex => load_executions (ingest st ex) rest

/-- A fully-populated well-formed raw record. -/
def goodRaw : RawRecord :=
  { execution_id := .val "e1"
    pipeline_id := .val "p1"
    status := .val "SUCCESS"
    start_time := .val 0
    end_time := .val 60
    duration := .val 60
    records_processed := .val 10
    team := .val "t" }

/-- A raw record whose optional `duration` key is absent entirely (the other
seven keys are present). -/
def rawNoDuration : RawRecord :=
  { goodRaw with duration := .missing }

/-- A malformed raw record: the required `execution_id` key is missing. -/
def badRaw : RawRecord :=
  { goodRaw with execution_id := .missing }

/-- C8 counterexample: a record whose optional `duration` key is absent (as
opposed to present-but-null) does not construct with the default 0 — the
plain `data['duration']` access fails the load with a `KeyError`. -/
theorem from_json_missing_duration_fails :
    from_json rawNoDuration = .error (.keyError "duration") := by
  rfl

/-- C8 (amended): the documented defaults apply to present-but-null optional
fields — with every key present, a null `duration` becomes 0, a null
`records_processed` becomes 0 and a null end time stays empty, and only
execution id, pipeline id, status, a non-null start time and team further
constrain the load — but every one of the eight keys, optional-valued ones
included, must be present for construction to succeed. -/
theorem from_json_null_defaults (r : RawRecord)
    (hexec : r.execution_id ≠ .missing) (hpid : r.pipeline_id ≠ .missing)
    (hstatus : r.status ≠ .missing) (t : Int) (hstart : r.start_time = .val t)
    (hend : r.end_time = .null) (hdur : r.duration = .null)
    (hrec : r.records_processed = .null) (hteam : r.team ≠ .missing) :
    from_json r
      = .ok { execution_id := r.execution_id.toOption
              pipeline_id := r.pipeline_id.toOption
              status := parseStatus r.status.toOption
              start_time := t
              end_time := none
              duration := 0
              records_processed := 0
              team := r.team.toOption } := by
  unfold from_json
  rw [jfieldRead_of_ne_missing _ _ hexec, jfieldRead_of_ne_missing _ _ hpid,
    jfieldRead_of_ne_missing _ _ hstatus, jfieldRead_of_ne_missing _ _ hteam,
    hstart, hend, hdur, hrec]
  rfl

/-- A concrete record with null `duration`, `records_processed` and
`end_time`. -/
def rawNulls : RawRecord :=
  { goodRaw with end_time := .null, duration := .null,
                 records_processed := .null }

theorem from_json_null_defaults_witness :
    rawNulls.duration = .null ∧
    from_json rawNulls
      = .ok { execution_id := rawNulls.execution_id.toOption
              pipeline_id := rawNulls.pipeline_id.toOption
              status := parseStatus rawNulls.status.toOption
              start_time := 0
              end_time := none
              duration := 0
              records_processed := 0
              team := rawNulls.team.toOption } :=
  ⟨rfl, from_json_null_defaults rawNulls (by decide) (by decide) (by decide)
    0 (by decide) (by decide) (by decide) (by decide) (by decide)⟩

/-- C9 counterexample: loading a well-formed record followed by a malformed
one aborts with an error, yet the returned monitor state still contains the
well-formed record — the log is not restored to its pre-load (empty)
state. -/
theorem load_partial_ingestion :
    (load_executions initialState [goodRaw, badRaw]).2
        = some (.keyError "execution_id") ∧
    (load_executions initialState [goodRaw, badRaw]).1.executions.length = 1 := by
  constructor <;> rfl

/-- C9 (amended): a malformed record is a fatal load error — the error
propagates and nothing from the malformed record onward is ingested — but
there is no rollback: the well-formed prefix before the bad record remains
ingested exactly as if it alone had been loaded. -/
theorem load_stops_at_first_error (st : MonitorState) (good : List RawRecord)
    (bad : RawRecord) (rest : List RawRecord)
    (hgood : ∀ r ∈ good, ∃ ex, from_json r = .ok ex)
    (e : LoadError) (hbad : from_json bad = .error e) :
    load_executions st (good ++ bad :: rest)
      = ((load_executions st good).1, some e) := by
  induction good generalizing st with
  | nil =>
    simp only [List.nil_append, load_executions, hbad]
  | cons g good ih =>
    rcases hgood g (List.mem_cons_self g good) with ⟨ex, hex⟩
    simp only [List.cons_append, load_executions, hex]
    exact ih (ingest st ex) (fun r hr => hgood r (List.mem_cons_of_mem g hr))

theorem load_stops_at_first_error_witness :
    (∀ r ∈ [goodRaw], ∃ ex, from_json r = .ok ex) ∧
    from_json badRaw = .error (.keyError "execution_id") ∧
    load_executions initialState ([goodRaw] ++ badRaw :: [])
      = ((load_executions initialState [goodRaw]).1,
         some (.keyError "execution_id")) := by
  have hgood : ∀ r ∈ [goodRaw], ∃ ex, from_json r = .ok ex := by
    intro r hr
    rw [List.mem_singleton] at hr
    subst hr
    exact ⟨_, rfl⟩
  exact ⟨hgood, rfl,
    load_stops_at_first_error initialState [goodRaw] badRaw [] hgood
      (.keyError "execution_id") rfl⟩

end PM
